import Mathlib

/-!
Verification of the model-call orchestration layer of the HoosierLaw
browser application (the `GeminiService` class and the `Assistant` chat
handler). The TypeScript source is embedded shallowly: network effects
are abstracted as explicit outcome parameters, JS optional values become
`Option`, thrown errors become `Except`, and the retry loop becomes a
structurally recursive function that also counts primary calls, backoff
sleeps and fallback calls.
-/

/-- A thrown JS error as the retry classifier sees it: optional numeric
`status` and `code` fields and an optional `message` string. -/
structure JsError where
  status : Option Nat
  code : Option Nat
  message : Option String
deriving DecidableEq, Repr

/-- Token accounting block of a model response (`usageMetadata`). -/
structure UsageMetadata where
  totalTokenCount : Option Nat
  promptTokenCount : Option Nat
  candidatesTokenCount : Option Nat
deriving DecidableEq, Repr

/-- A grounding web reference (`chunk.web`), with optional `uri` and `title`. -/
structure WebSource where
  uri : Option String
  title : Option String
deriving DecidableEq, Repr

/-- One grounding chunk of a response candidate. -/
structure GroundingChunk where
  web : Option WebSource
deriving DecidableEq, Repr

/-- Grounding metadata of a candidate (`groundingMetadata`). -/
structure GroundingMetadata where
  groundingChunks : Option (List GroundingChunk)
deriving DecidableEq, Repr

/-- One response candidate (`candidates[i]`). -/
structure Candidate where
  groundingMetadata : Option GroundingMetadata
deriving DecidableEq, Repr

/-- A model response (`GenerateContentResponse`): optional text, optional
candidate list, optional usage metadata. -/
structure GenerateContentResponse where
  text : Option String
  candidates : Option (List Candidate)
  usageMetadata : Option UsageMetadata
deriving DecidableEq, Repr

/-- A merged citation source produced by `researchLegalPrecedent`. -/
structure Source where
  title : String
  uri : String
deriving DecidableEq, Repr

/-- Model of JS `String.prototype.trim`: drop leading and trailing
whitespace characters. -/
def jsTrim (s : String) : String :=
  ⟨(s.data.dropWhile Char.isWhitespace).rdropWhile Char.isWhitespace⟩

/-- Model of JS `String.prototype.includes`: substring containment. -/
def jsIncludes (s pat : String) : Bool :=
  decide (pat.data <:+: s.data)

/-- Model of the JS expression `x || dflt` on an optional string: JS
falls through to `dflt` exactly when `x` is absent or the empty string
(both falsy). -/
def jsOrString (x : Option String) (dflt : String) : String :=
  match x with
  | none => dflt
  | some t => if t = "" then dflt else t

/-- The representative token count of `trackUsage` (source lines 28-32):
`usageMetadata?.totalTokenCount ?? usageMetadata?.promptTokenCount ??
usageMetadata?.candidatesTokenCount ?? 0`. JS `??` falls through only on
null or undefined, so a present count of `0` is kept. -/
def tokenCountOf (response : GenerateContentResponse) : Nat :=
  ((response.usageMetadata.bind UsageMetadata.totalTokenCount) <|>
   (response.usageMetadata.bind UsageMetadata.promptTokenCount) <|>
   (response.usageMetadata.bind UsageMetadata.candidatesTokenCount)).getD 0

/-- `trackUsage` (source lines 26-35). Returns the value passed to the
registered token listener, or `none` when no callback fires (no listener
registered, or the computed count is not strictly positive). -/
def trackUsage (hasListener : Bool) (response : GenerateContentResponse) :
    Option Nat :=
  if hasListener = false then none
  else if 0 < tokenCountOf response then some (tokenCountOf response)
  else none

/-- The retry classifier of `withRetry` (source lines 64-70): retryable
iff `status ?? code` is 429 or 503, or the message contains "quota",
"RESOURCE_EXHAUSTED" or "rate limit". -/
def isRetryable (e : JsError) : Bool :=
  (e.status <|> e.code) == some 429 ||
  (e.status <|> e.code) == some 503 ||
  jsIncludes (e.message.getD "") "quota" ||
  jsIncludes (e.message.getD "") "RESOURCE_EXHAUSTED" ||
  jsIncludes (e.message.getD "") "rate limit"

/-- The retry loop of `withRetry` (source lines 58-81). `operation i` is
the outcome of the i-th primary attempt; `remaining` counts the attempts
still allowed after the current one (`maxRetries - attempt`), so
`remaining = 0` renders the JS break condition `attempt === maxRetries`.
Returns (primary calls made, backoff sleeps performed, loop outcome:
the success value or the last observed error). -/
def retryLoop {α : Type} (operation : Nat → Except JsError α)
    (attempt : Nat) : Nat → Nat × Nat × Except JsError α
  | 0 =>
    match operation attempt with
    | .ok v => (1, 0, .ok v)
    | .error e => (1, 0, .error e)
  | remaining + 1 =>
    match operation attempt with
    | .ok v => (1, 0, .ok v)
    | .error e =>
      if isRetryable e then
        let r := retryLoop operation (attempt + 1) remaining
        (r.1 + 1, r.2.1 + 1, r.2.2)
      else
        (1, 0, .error e)

deriving instance DecidableEq for Except

/-- Observable outcome of one `withRetry` call: how many times the
primary ran, how many backoff sleeps happened, how many times the
fallback ran, and the value returned or error thrown. -/
structure RetryResult (α : Type) where
  primaryCalls : Nat
  sleeps : Nat
  fallbackCalls : Nat
  result : Except JsError α
deriving DecidableEq, Repr

/-- `withRetry` (source lines 50-93). After the retry loop, on failure:
if a fallback operation was supplied it runs once; a fallback error is
caught and logged (source lines 87-89) and the LAST PRIMARY error is
rethrown (`throw lastError`, line 92). The fallback runs at most once,
so it is abstracted as a single outcome value. -/
def withRetry {α : Type} (operation : Nat → Except JsError α)
    (fallbackOperation : Option (Except JsError α)) (maxRetries : Nat) :
    RetryResult α :=
  let r := retryLoop operation 0 maxRetries
  match r.2.2 with
  | .ok v => ⟨r.1, r.2.1, 0, .ok v⟩
  | .error lastError =>
    match fallbackOperation with
    | some fb =>
      match fb with
      | .ok v => ⟨r.1, r.2.1, 1, .ok v⟩
      | .error _ => ⟨r.1, r.2.1, 1, .error lastError⟩
    | none => ⟨r.1, r.2.1, 0, .error lastError⟩

/-- The grounding chunks of a response as read by `extractSources`
(source line 147): `res.candidates?.[0]?.groundingMetadata?.groundingChunks ?? []`. -/
def groundingChunksOf (res : GenerateContentResponse) : List GroundingChunk :=
  (((res.candidates.bind List.head?).bind
      Candidate.groundingMetadata).bind
      GroundingMetadata.groundingChunks).getD []

/-- JS truthiness of the filter `c.web?.uri` (source line 149): the chunk
carries a web reference whose uri is present and non-empty. -/
def hasWebUri (c : GroundingChunk) : Bool :=
  match c.web.bind WebSource.uri with
  | some u => u != ""
  | none => false

/-- `extractSources` (source lines 146-154): keep chunks with a truthy
web uri, read `title ?? "Untitled source"` and the uri. -/
def extractSources (res : GenerateContentResponse) : List Source :=
  ((groundingChunksOf res).filter hasWebUri).map fun c =>
    { title := (c.web.bind WebSource.title).getD "Untitled source",
      uri := (c.web.bind WebSource.uri).getD "" }

/-- Insertion into a JS `Map` rendered as an association list: an
existing key keeps its position but its value is overwritten; a new key
is appended at the end (JS Map insertion-order semantics). -/
def jsMapInsert (m : List (String × Source)) (k : String) (v : Source) :
    List (String × Source) :=
  if m.any (fun p => p.1 == k) then
    m.map fun p => if p.1 == k then (p.1, v) else p
  else
    m ++ [(k, v)]

/-- `new Map(pairs)`: left-to-right insertion of the key-value pairs. -/
def jsMapOfPairs (pairs : List (String × Source)) : List (String × Source) :=
  pairs.foldl (fun m p => jsMapInsert m p.1 p.2) []

/-- The dedup step of `researchLegalPrecedent` (source lines 157-159):
`Array.from(new Map(allSources.map(s => [s.uri, s])).values())`. -/
def uniqueSources (allSources : List Source) : List Source :=
  (jsMapOfPairs (allSources.map fun s => (s.uri, s))).map Prod.snd

/-- The merged citation list of `researchLegalPrecedent` (source line
156 plus the dedup): case-law sources are scanned before statute
sources. -/
def mergeSources (caseRes statuteRes : GenerateContentResponse) : List Source :=
  uniqueSources (extractSources caseRes ++ extractSources statuteRes)

/-- The combined report text of `researchLegalPrecedent` (source lines
161-171). -/
def combinedText (caseRes statuteRes : GenerateContentResponse) : String :=
  String.intercalate "\n" [
    "# Indiana Civil Legal Research Report (Grounded with Google Search)",
    "",
    "## Civil Case Law Analysis",
    jsOrString (caseRes.text.map jsTrim) "(no case law summary returned)",
    "",
    "## Relevant Statutes & Trial Rules",
    jsOrString (statuteRes.text.map jsTrim) "(no statutes returned)",
    "",
    "**Sources (" ++ toString (mergeSources caseRes statuteRes).length ++
      ")**: see below"]

/-- The case-law role call of `researchLegalPrecedent` (source lines
121-134): the reasoning-model primary wrapped in `withRetry` WITH a
fast-model fallback. The network is abstracted: `primary i` is the
outcome of the i-th reasoning-model attempt and `fallback` the outcome
of the single fast-model fallback call. -/
def caseLawRoleCall (primary : Nat → Except JsError GenerateContentResponse)
    (fallback : Except JsError GenerateContentResponse) :
    RetryResult GenerateContentResponse :=
  withRetry primary (some fallback) 4

/-- The statutes role call of `researchLegalPrecedent` (source lines
136-143): the fast-model primary wrapped in `withRetry` with NO fallback
argument. -/
def statutesRoleCall (primary : Nat → Except JsError GenerateContentResponse) :
    RetryResult GenerateContentResponse :=
  withRetry primary none 4

/-- Result shape of `researchLegalPrecedent`. -/
structure ResearchResult where
  text : String
  sources : List Source
deriving DecidableEq, Repr

/-- The fixed error surfaced when research fails (source lines 176-178). -/
def researchErrorMessage : String :=
  "Failed to complete grounded legal research. The search engine or model may be temporarily unavailable."

/-- `researchLegalPrecedent` (source lines 98-180): run the two role
calls (concurrently in the source; outcome-wise their order is
irrelevant), and if either ultimately fails, surface the fixed research
error; otherwise merge texts and deduplicate sources. -/
def researchLegalPrecedent
    (casePrimary : Nat → Except JsError GenerateContentResponse)
    (caseFallback : Except JsError GenerateContentResponse)
    (statutePrimary : Nat → Except JsError GenerateContentResponse) :
    Except String ResearchResult :=
  match (caseLawRoleCall casePrimary caseFallback).result,
        (statutesRoleCall statutePrimary).result with
  | .ok caseRes, .ok statuteRes =>
    .ok { text := combinedText caseRes statuteRes,
          sources := mergeSources caseRes statuteRes }
  | _, _ => .error researchErrorMessage

/-- A stored case file as `formatCaseFiles` reads it. -/
structure CaseFile where
  name : String
  content : String
deriving DecidableEq, Repr

/-- The per-file truncated content of `formatCaseFiles` (source line
42): `f.content.trim().slice(0, 14000)`. -/
def safeContent (f : CaseFile) : String :=
  ⟨(jsTrim f.content).data.take 14000⟩

/-- The per-file block of `formatCaseFiles` (source line 43); the
reported character count is the length of the ORIGINAL content. -/
def fileBlock (f : CaseFile) : String :=
  "--- FILE: " ++ f.name ++ " (" ++ toString f.content.length ++
    " chars) ---\n" ++ safeContent f ++ "\n--- END ---"

/-- `formatCaseFiles` (source lines 37-48). -/
def formatCaseFiles (files : List CaseFile) : String :=
  if files.length = 0 then ""
  else
    "\n\n<CASE_FILES>\n" ++
      String.intercalate "\n\n" (files.map fileBlock) ++
      "\n</CASE_FILES>\n"

/-- The placeholder returned by `draftMotion` for a blank model text
(source line 215). -/
def motionFailureText : String :=
  "// Motion drafting failed – please try again"

/-- The tail of `draftMotion` (source lines 209-215): the `withRetry`
outcome is propagated on error; on success the result is
`response.text?.trim() || motionFailureText`. -/
def draftMotion (retryOutcome : RetryResult GenerateContentResponse) :
    Except JsError String :=
  match retryOutcome.result with
  | .error e => .error e
  | .ok response => .ok (jsOrString (response.text.map jsTrim) motionFailureText)

/-- The per-response text of `runChat` inside `chatWithExpert` (source
line 241): `res.text?.trim() ?? "No response received."`. -/
def runChatText (res : GenerateContentResponse) : String :=
  (res.text.map jsTrim).getD "No response received."

/-- `chatWithExpert` (source lines 218-248): the reasoning-model chat
wrapped in `withRetry` with a fast-model fallback; each operation maps
its response through `runChatText`. -/
def chatWithExpert (primary : Nat → Except JsError GenerateContentResponse)
    (fallback : Except JsError GenerateContentResponse) : RetryResult String :=
  withRetry (fun attempt => (primary attempt).map runChatText)
    (some (fallback.map runChatText)) 4

/-- One displayed chat turn of the `Assistant` component. -/
structure ChatMessage where
  role : String
  text : String
deriving DecidableEq, Repr

/-- The fixed apology turn appended by `Assistant.handleSend` on failure
(src/App.tsx line 333). -/
def apologyMessageText : String :=
  "I encountered an error. Please try again."

/-- `Assistant.handleSend` (src/App.tsx lines 316-337) as a transition
on the message list: blank input is ignored; otherwise the user turn is
appended, and then either the model reply or the fixed apology turn,
depending on whether `chatWithExpert` returned or threw. -/
def handleSend (messages : List ChatMessage) (input : String)
    (callOutcome : Except JsError String) : List ChatMessage :=
  if jsTrim input = "" then messages
  else
    match callOutcome with
    | .ok responseText =>
      messages ++ [⟨"user", input⟩, ⟨"model", responseText⟩]
    | .error _ =>
      messages ++ [⟨"user", input⟩, ⟨"model", apologyMessageText⟩]

/-! ## Helper lemmas about the retry loop -/

theorem retryLoop_not_retryable {α : Type} (op : Nat → Except JsError α)
    (attempt remaining : Nat) (e : JsError)
    (h : op attempt = .error e) (hnr : isRetryable e = false) :
    retryLoop op attempt remaining = (1, 0, .error e) := by
  cases remaining <;> simp [retryLoop, h, hnr]

theorem retryLoop_allFail {α : Type} (op : Nat → Except JsError α)
    (h : ∀ i, ∃ e, op i = .error e ∧ isRetryable e = true) :
    ∀ remaining attempt : Nat, ∃ e,
      retryLoop op attempt remaining = (remaining + 1, remaining, .error e) := by
  intro remaining
  induction remaining with
  | zero =>
    intro attempt
    obtain ⟨e, he, _⟩ := h attempt
    exact ⟨e, by simp [retryLoop, he]⟩
  | succ n ih =>
    intro attempt
    obtain ⟨e, he, hr⟩ := h attempt
    obtain ⟨e2, he2⟩ := ih (attempt + 1)
    exact ⟨e2, by simp [retryLoop, he, hr, he2]⟩

theorem retryLoop_calls_le {α : Type} (op : Nat → Except JsError α) :
    ∀ remaining attempt : Nat,
      (retryLoop op attempt remaining).1 ≤ remaining + 1 := by
  intro remaining
  induction remaining with
  | zero =>
    intro attempt
    cases hop : op attempt <;> simp [retryLoop, hop]
  | succ n ih =>
    intro attempt
    cases hop : op attempt with
    | ok v => simp [retryLoop, hop]
    | error e =>
      cases hr : isRetryable e with
      | true =>
        have := ih (attempt + 1)
        simp only [retryLoop, hop, hr, if_true]
        omega
      | false => simp [retryLoop, hop, hr]

theorem withRetry_primaryCalls_eq {α : Type} (op : Nat → Except JsError α)
    (fb : Option (Except JsError α)) (mr : Nat) :
    (withRetry op fb mr).primaryCalls = (retryLoop op 0 mr).1 := by
  cases hres : (retryLoop op 0 mr).2.2 with
  | ok v => simp [withRetry, hres]
  | error e =>
    rcases fb with _ | fbv
    · simp [withRetry, hres]
    · cases fbv <;> simp [withRetry, hres]

theorem withRetry_fallbackCalls_le_one {α : Type} (op : Nat → Except JsError α)
    (fb : Option (Except JsError α)) (mr : Nat) :
    (withRetry op fb mr).fallbackCalls ≤ 1 := by
  cases hres : (retryLoop op 0 mr).2.2 with
  | ok v => simp [withRetry, hres]
  | error e =>
    rcases fb with _ | fbv
    · simp [withRetry, hres]
    · cases fbv <;> simp [withRetry, hres]

/-! ## C1 -/

/-- C1 counterexample: for a usage record carrying totalTokenCount = 0
and promptTokenCount = 5, `trackUsage` does NOT invoke the listener with
5 as the claim states; JS `??` keeps a present total of 0, which fails
the strict-positivity gate, so no callback fires at all. -/
theorem trackUsage_zero_total_not_five :
    trackUsage true ⟨none, none, some ⟨some 0, some 5, none⟩⟩ ≠ some 5 ∧
    trackUsage true ⟨none, none, some ⟨some 0, some 5, none⟩⟩ = none := by
  decide

/-- C1 (amended): the total-token count takes priority whenever it is
PRESENT, even when zero, so a record with totalTokenCount = 0 triggers
no callback regardless of the other counts; and a record with no token
fields (or no usage metadata) triggers no callback either. -/
theorem trackUsage_zero_total_suppresses_callback :
    (∀ (text : Option String) (cands : Option (List Candidate))
        (p c : Option Nat),
      trackUsage true ⟨text, cands, some ⟨some 0, p, c⟩⟩ = none) ∧
    (∀ (text : Option String) (cands : Option (List Candidate)),
      trackUsage true ⟨text, cands, some ⟨none, none, none⟩⟩ = none ∧
      trackUsage true ⟨text, cands, none⟩ = none) := by
  refine ⟨fun text cands p c => ?_, fun text cands => ⟨?_, ?_⟩⟩ <;>
    simp [trackUsage, tokenCountOf]

/-! ## C2 -/

/-- C2 counterexample: when the retry budget is exhausted and the
supplied fallback itself throws, `withRetry` does NOT propagate the
fallback error to the caller; the fallback error is caught and logged
and the last primary error is rethrown instead. -/
theorem withRetry_fallback_error_not_propagated :
    (withRetry (α := Nat)
        (fun _ => .error ⟨some 401, none, some "API key not valid"⟩)
        (some (.error ⟨some 400, none, some "fallback failed"⟩)) 4).result
      ≠ .error ⟨some 400, none, some "fallback failed"⟩ ∧
    (withRetry (α := Nat)
        (fun _ => .error ⟨some 401, none, some "API key not valid"⟩)
        (some (.error ⟨some 400, none, some "fallback failed"⟩)) 4).result
      = .error ⟨some 401, none, some "API key not valid"⟩ := by
  decide

/-- C2 (amended): when the retry budget is exhausted (or the primary
failed non-retryably) and the supplied fallback itself throws, the
fallback failure is fatal in the sense that no success value is
produced, but `withRetry` catches the fallback error and propagates the
LAST OBSERVED PRIMARY error to the caller, not the fallback error. -/
theorem withRetry_fallback_failure_rethrows_primary_error {α : Type}
    (op : Nat → Except JsError α) (fbErr : JsError) (mr : Nat)
    (lastErr : JsError)
    (h : (retryLoop op 0 mr).2.2 = .error lastErr) :
    (withRetry op (some (.error fbErr)) mr).result = .error lastErr ∧
    (withRetry op (some (.error fbErr)) mr).fallbackCalls = 1 := by
  constructor <;> simp [withRetry, h]

/-- C2 witness: a concrete run where every primary attempt fails with a
503 and the fallback fails with a 400; the 503 is what surfaces. -/
theorem withRetry_fallback_failure_rethrows_primary_error_witness :
    (withRetry (α := Nat) (fun _ => .error ⟨some 503, none, none⟩)
        (some (.error ⟨some 400, none, none⟩)) 2).result
      = .error ⟨some 503, none, none⟩ :=
  (withRetry_fallback_failure_rethrows_primary_error
    (fun _ => .error ⟨some 503, none, none⟩) ⟨some 400, none, none⟩ 2
    ⟨some 503, none, none⟩ (by decide)).1

/-! ## C4 -/

/-- C4: if every primary attempt fails with a retryable error,
`withRetry` invokes the primary exactly maxRetries + 1 times and the
fallback exactly once when one is supplied; and in every execution the
primary runs at most maxRetries + 1 times and the fallback at most
once. -/
theorem withRetry_attempt_counts {α : Type} :
    (∀ (op : Nat → Except JsError α) (fb : Option (Except JsError α))
        (maxRetries : Nat),
      (∀ i, ∃ e, op i = .error e ∧ isRetryable e = true) →
      (withRetry op fb maxRetries).primaryCalls = maxRetries + 1 ∧
      (fb ≠ none → (withRetry op fb maxRetries).fallbackCalls = 1)) ∧
    (∀ (op : Nat → Except JsError α) (fb : Option (Except JsError α))
        (maxRetries : Nat),
      (withRetry op fb maxRetries).primaryCalls ≤ maxRetries + 1 ∧
      (withRetry op fb maxRetries).fallbackCalls ≤ 1) := by
  constructor
  · intro op fb mr h
    obtain ⟨e, he⟩ := retryLoop_allFail op h mr 0
    rcases fb with _ | fbv
    · exact ⟨by simp [withRetry, he], fun hn => absurd rfl hn⟩
    · cases fbv <;>
        exact ⟨by simp [withRetry, he], fun _ => by simp [withRetry, he]⟩
  · intro op fb mr
    refine ⟨?_, withRetry_fallbackCalls_le_one op fb mr⟩
    rw [withRetry_primaryCalls_eq]
    exact retryLoop_calls_le op mr 0

/-- C4 witness: five always-rate-limited attempts (maxRetries = 4)
followed by one successful fallback call. -/
theorem withRetry_attempt_counts_witness :
    (withRetry (α := Nat) (fun _ => .error ⟨some 429, none, none⟩)
        (some (.ok 7)) 4).primaryCalls = 4 + 1 :=
  ((withRetry_attempt_counts.1 (fun _ => .error ⟨some 429, none, none⟩)
    (some (.ok 7)) 4
    (fun _ => ⟨⟨some 429, none, none⟩, rfl, by decide⟩))).1

/-! ## C5 -/

/-- C5: if the primary fails with a non-retryable error on its first
attempt, `withRetry` invokes the primary exactly once, never sleeps for
backoff, then invokes the fallback exactly once when one is provided,
and otherwise re-raises the error. -/
theorem withRetry_nonretryable_single_attempt {α : Type}
    (op : Nat → Except JsError α) (e : JsError)
    (fb : Option (Except JsError α)) (mr : Nat)
    (h0 : op 0 = .error e) (hnr : isRetryable e = false) :
    (withRetry op fb mr).primaryCalls = 1 ∧
    (withRetry op fb mr).sleeps = 0 ∧
    (fb ≠ none → (withRetry op fb mr).fallbackCalls = 1) ∧
    (fb = none → (withRetry op fb mr).result = .error e) := by
  have hloop : retryLoop op 0 mr = (1, 0, .error e) :=
    retryLoop_not_retryable op 0 mr e h0 hnr
  rcases fb with _ | fbv
  · simp [withRetry, hloop]
  · cases fbv <;> simp [withRetry, hloop]

/-- C5 witness: a concrete auth failure (status 401) with a successful
fallback. -/
theorem withRetry_nonretryable_single_attempt_witness :
    (withRetry (α := Nat) (fun _ => .error ⟨some 401, none, some "API key not valid"⟩)
        (some (.ok 3)) 4).primaryCalls = 1 :=
  (withRetry_nonretryable_single_attempt
    (fun _ => .error ⟨some 401, none, some "API key not valid"⟩)
    ⟨some 401, none, some "API key not valid"⟩ (some (.ok 3)) 4
    rfl (by decide)).1

/-! ## C6 -/

/-- The retryable classification as the spec words it, stated as a
proposition for comparison with the implemented `isRetryable`: the
status or code equals the rate-limit code 429 or the
service-unavailable code 503, or the message contains one of the
quota-exhaustion markers or the rate-limit marker. -/
def retryablePerSpec (e : JsError) : Prop :=
  (e.status <|> e.code) = some 429 ∨
  (e.status <|> e.code) = some 503 ∨
  "quota".data <:+: (e.message.getD "").data ∨
  "RESOURCE_EXHAUSTED".data <:+: (e.message.getD "").data ∨
  "rate limit".data <:+: (e.message.getD "").data

/-- C6: `withRetry` classifies an error as retryable exactly per the
spec disjunction, and every error outside this set is never retried: it
ends the loop after a single attempt with no backoff sleep, falling
through immediately to the fallback-or-surface step. -/
theorem isRetryable_characterization :
    (∀ e : JsError, isRetryable e = true ↔ retryablePerSpec e) ∧
    (∀ {α : Type} (op : Nat → Except JsError α)
        (fb : Option (Except JsError α)) (mr : Nat) (e : JsError),
      op 0 = .error e → isRetryable e = false →
      (withRetry op fb mr).primaryCalls = 1 ∧
      (withRetry op fb mr).sleeps = 0) := by
  constructor
  · intro e
    simp [isRetryable, retryablePerSpec, jsIncludes, or_assoc]
  · intro α op fb mr e h0 hnr
    have hloop : retryLoop op 0 mr = (1, 0, .error e) :=
      retryLoop_not_retryable op 0 mr e h0 hnr
    rcases fb with _ | fbv
    · simp [withRetry, hloop]
    · cases fbv <;> simp [withRetry, hloop]

/-- C6 witness: a 503 is retryable by the spec disjunction; a 400
content-policy rejection is not retried and falls through after one
attempt. -/
theorem isRetryable_characterization_witness :
    isRetryable ⟨some 503, none, none⟩ = true ∧
    (withRetry (α := Nat) (fun _ => .error ⟨some 400, none, some "blocked"⟩)
        none 4).primaryCalls = 1 :=
  ⟨(isRetryable_characterization.1 ⟨some 503, none, none⟩).mpr
      (Or.inr (Or.inl rfl)),
   (isRetryable_characterization.2
      (fun _ => .error ⟨some 400, none, some "blocked"⟩)
      none 4 ⟨some 400, none, some "blocked"⟩ rfl (by decide)).1⟩

/-! ## C3 -/

/-- C3 counterexample: the statutes role call of
`researchLegalPrecedent` is wrapped in `withRetry` with NO fallback, so
when its primary exhausts the retry budget the role call fails with
zero fallback attempts, refuting the claim that either role gets a
role-specific fallback attempt. -/
theorem statutesRoleCall_exhaustion_without_fallback :
    (statutesRoleCall (fun _ => .error ⟨some 429, none, none⟩)).fallbackCalls
        = 0 ∧
    (statutesRoleCall (fun _ => .error ⟨some 429, none, none⟩)).primaryCalls
        = 5 ∧
    (statutesRoleCall (fun _ => .error ⟨some 429, none, none⟩)).result
        = .error ⟨some 429, none, none⟩ := by
  decide

/-- C3 (amended): both role calls are individually wrapped in the retry
mechanism, but only the case-law role carries a fallback operation
(targeting the faster model): exhausting its retries leads to exactly
one fallback attempt; the statutes role call has no fallback at all, so
exhausting its retries fails that role directly with zero fallback
attempts. -/
theorem researchRoleCalls_fallback_structure :
    (∀ (cp : Nat → Except JsError GenerateContentResponse)
        (cf : Except JsError GenerateContentResponse),
      (∀ i, ∃ e, cp i = .error e ∧ isRetryable e = true) →
      (caseLawRoleCall cp cf).fallbackCalls = 1 ∧
      (caseLawRoleCall cp cf).primaryCalls = 4 + 1) ∧
    (∀ sp : Nat → Except JsError GenerateContentResponse,
      (statutesRoleCall sp).fallbackCalls = 0) ∧
    (∀ sp : Nat → Except JsError GenerateContentResponse,
      (∀ i, ∃ e, sp i = .error e ∧ isRetryable e = true) →
      ∃ e, (statutesRoleCall sp).result = .error e) := by
  refine ⟨?_, ?_, ?_⟩
  · intro cp cf h
    obtain ⟨e, he⟩ := retryLoop_allFail cp h 4 0
    cases cf <;> simp [caseLawRoleCall, withRetry, he]
  · intro sp
    cases hres : (retryLoop sp 0 4).2.2 <;>
      simp [statutesRoleCall, withRetry, hres]
  · intro sp h
    obtain ⟨e, he⟩ := retryLoop_allFail sp h 4 0
    exact ⟨e, by simp [statutesRoleCall, withRetry, he]⟩

/-- C3 witness: a case-law role whose primary is always rate limited
performs one fallback call; a statutes role call never performs any. -/
theorem researchRoleCalls_fallback_structure_witness :
    (caseLawRoleCall (fun _ => .error ⟨some 429, none, none⟩)
        (.ok ⟨none, none, none⟩)).fallbackCalls = 1 ∧
    (statutesRoleCall (fun _ => .ok ⟨none, none, none⟩)).fallbackCalls = 0 :=
  ⟨(researchRoleCalls_fallback_structure.1
      (fun _ => .error ⟨some 429, none, none⟩) (.ok ⟨none, none, none⟩)
      (fun _ => ⟨⟨some 429, none, none⟩, rfl, by decide⟩)).1,
   researchRoleCalls_fallback_structure.2.1 (fun _ => .ok ⟨none, none, none⟩)⟩

/-! ## Helper lemmas about the JS Map dedup -/

/-- First-seen-order deduplication, as the spec words the merge order. -/
def firstSeen (l : List String) : List String :=
  l.foldl (fun acc k => if k ∈ acc then acc else acc ++ [k]) []

theorem jsMapInsert_map_fst (m : List (String × Source)) (k : String)
    (v : Source) :
    (jsMapInsert m k v).map Prod.fst =
      if k ∈ m.map Prod.fst then m.map Prod.fst
      else m.map Prod.fst ++ [k] := by
  have hmem : (m.any fun p => p.1 == k) = true ↔ k ∈ m.map Prod.fst := by
    rw [List.any_eq_true]
    constructor
    · rintro ⟨p, hp, hpk⟩
      exact List.mem_map.2 ⟨p, hp, beq_iff_eq.mp hpk⟩
    · intro hk
      obtain ⟨p, hp, hpk⟩ := List.mem_map.1 hk
      exact ⟨p, hp, beq_iff_eq.mpr hpk⟩
  unfold jsMapInsert
  by_cases h : k ∈ m.map Prod.fst
  · rw [if_pos (hmem.mpr h), if_pos h, List.map_map]
    apply List.map_congr_left
    intro p _
    simp only [Function.comp_apply]
    split <;> rfl
  · rw [if_neg (fun hc => h (hmem.mp hc)), if_neg h]
    simp

theorem jsMapOfPairs_foldl_fst (pairs : List (String × Source)) :
    ∀ m : List (String × Source),
      ((pairs.foldl (fun acc p => jsMapInsert acc p.1 p.2) m).map Prod.fst)
        = (pairs.map Prod.fst).foldl
            (fun acc k => if k ∈ acc then acc else acc ++ [k])
            (m.map Prod.fst) := by
  induction pairs with
  | nil => intro m; rfl
  | cons p rest ih =>
    intro m
    simp only [List.foldl_cons, List.map_cons]
    rw [ih, jsMapInsert_map_fst]

theorem jsMapInsert_key_inv (m : List (String × Source)) (k : String)
    (v : Source) (hm : ∀ p ∈ m, p.1 = p.2.uri) (hkv : k = v.uri) :
    ∀ q ∈ jsMapInsert m k v, q.1 = q.2.uri := by
  unfold jsMapInsert
  by_cases h : (m.any fun p => p.1 == k) = true
  · rw [if_pos h]
    intro q hq
    obtain ⟨p, hp, rfl⟩ := List.mem_map.1 hq
    by_cases hpk : p.1 == k
    · simp only [if_pos hpk]
      rw [show p.1 = k from by exact beq_iff_eq.mp hpk]
      exact hkv
    · simp only [if_neg hpk]
      exact hm p hp
  · rw [if_neg h]
    intro q hq
    rcases List.mem_append.1 hq with h1 | h2
    · exact hm q h1
    · simp only [List.mem_singleton] at h2
      subst h2
      exact hkv

theorem jsMapOfPairs_key_inv (pairs : List (String × Source)) :
    ∀ m : List (String × Source),
      (∀ p ∈ pairs, p.1 = p.2.uri) → (∀ p ∈ m, p.1 = p.2.uri) →
      ∀ q ∈ pairs.foldl (fun acc p => jsMapInsert acc p.1 p.2) m,
        q.1 = q.2.uri := by
  induction pairs with
  | nil => intro m _ hm; exact hm
  | cons p rest ih =>
    intro m hpairs hm
    simp only [List.foldl_cons]
    exact ih (jsMapInsert m p.1 p.2)
      (fun q hq => hpairs q (List.mem_cons_of_mem p hq))
      (jsMapInsert_key_inv m p.1 p.2 hm (hpairs p (List.mem_cons_self p rest)))

theorem uniqueSources_map_uri (l : List Source) :
    (uniqueSources l).map Source.uri = firstSeen (l.map Source.uri) := by
  have hkeys := jsMapOfPairs_foldl_fst (l.map fun s => (s.uri, s)) []
  have hinv := jsMapOfPairs_key_inv (l.map fun s => (s.uri, s)) []
    (by intro p hp; obtain ⟨s, _, rfl⟩ := List.mem_map.1 hp; rfl)
    (by intro p hp; cases hp)
  unfold uniqueSources jsMapOfPairs firstSeen
  rw [List.map_map]
  have : ((l.map fun s => (s.uri, s)).foldl
      (fun acc p => jsMapInsert acc p.1 p.2) []).map (Source.uri ∘ Prod.snd)
      = ((l.map fun s => (s.uri, s)).foldl
      (fun acc p => jsMapInsert acc p.1 p.2) []).map Prod.fst := by
    apply List.map_congr_left
    intro q hq
    exact (hinv q hq).symm
  rw [this, hkeys]
  have hmaps : l.map (Prod.fst ∘ fun s => (s.uri, s)) = l.map Source.uri :=
    List.map_congr_left fun s _ => rfl
  simp only [List.map_map, List.map_nil]
  rw [hmaps]

theorem firstSeen_foldl_nodup (l : List String) :
    ∀ acc : List String, acc.Nodup →
      (l.foldl (fun acc k => if k ∈ acc then acc else acc ++ [k]) acc).Nodup := by
  induction l with
  | nil => intro acc h; exact h
  | cons k rest ih =>
    intro acc h
    simp only [List.foldl_cons]
    by_cases hk : k ∈ acc
    · rw [if_pos hk]; exact ih acc h
    · rw [if_neg hk]
      exact ih (acc ++ [k]) (by simp [List.nodup_append, h, hk])

theorem jsMapOfPairs_of_nodup (pairs : List (String × Source)) :
    ∀ m : List (String × Source),
      (((m ++ pairs).map Prod.fst).Nodup) →
      pairs.foldl (fun acc p => jsMapInsert acc p.1 p.2) m = m ++ pairs := by
  induction pairs with
  | nil => intro m _; simp
  | cons p rest ih =>
    intro m hnd
    have hp1 : p.1 ∉ m.map Prod.fst := by
      simp only [List.map_append, List.nodup_append] at hnd
      intro hc
      exact hnd.2.2 hc (by simp)
    have hany : ¬ ((m.any fun q => q.1 == p.1) = true) := by
      intro hc
      apply hp1
      simp only [List.any_eq_true, beq_iff_eq] at hc
      obtain ⟨q, hq, hqe⟩ := hc
      exact List.mem_map.2 ⟨q, hq, hqe⟩
    rw [List.foldl_cons]
    have hins : jsMapInsert m p.1 p.2 = m ++ [(p.1, p.2)] := by
      unfold jsMapInsert
      rw [if_neg hany]
    have hlist : (m ++ [(p.1, p.2)]) ++ rest = m ++ p :: rest := by simp
    rw [hins, ih (m ++ [(p.1, p.2)]) (by rw [hlist]; exact hnd)]
    simp

/-! ## C7 -/

/-- C7: the merged citation list of `researchLegalPrecedent` contains
exactly one entry per distinct URI, in first-seen order over the
concatenation of the case-law sources (scanned first) and the statute
sources; when the URIs are pairwise distinct the merge is exactly the
concatenation (the full union). -/
theorem mergeSources_dedup_by_uri
    (caseRes statuteRes : GenerateContentResponse) :
    (mergeSources caseRes statuteRes).map Source.uri
      = firstSeen ((extractSources caseRes ++ extractSources statuteRes).map
          Source.uri) ∧
    ((mergeSources caseRes statuteRes).map Source.uri).Nodup ∧
    (((extractSources caseRes ++ extractSources statuteRes).map
        Source.uri).Nodup →
      mergeSources caseRes statuteRes
        = extractSources caseRes ++ extractSources statuteRes) := by
  refine ⟨uniqueSources_map_uri _, ?_, ?_⟩
  · unfold mergeSources
    rw [uniqueSources_map_uri]
    exact firstSeen_foldl_nodup _ [] List.nodup_nil
  · intro hnd
    unfold mergeSources uniqueSources jsMapOfPairs
    rw [jsMapOfPairs_of_nodup _ [] (by simpa [List.map_map, Function.comp] using hnd)]
    have hid : (Prod.snd ∘ fun s : Source => (s.uri, s)) = id :=
      funext fun s => rfl
    simp [List.map_map, hid]

/-- C7 witness: one case-law source with uri u1 and one statute source
with uri u2; the merge is their full union in order. -/
theorem mergeSources_dedup_by_uri_witness :
    mergeSources
        ⟨none, some [⟨some ⟨some [⟨some ⟨some "u1", some "X"⟩⟩]⟩⟩], none⟩
        ⟨none, some [⟨some ⟨some [⟨some ⟨some "u2", some "Y"⟩⟩]⟩⟩], none⟩
      = extractSources
          ⟨none, some [⟨some ⟨some [⟨some ⟨some "u1", some "X"⟩⟩]⟩⟩], none⟩
        ++ extractSources
          ⟨none, some [⟨some ⟨some [⟨some ⟨some "u2", some "Y"⟩⟩]⟩⟩], none⟩ :=
  (mergeSources_dedup_by_uri
      ⟨none, some [⟨some ⟨some [⟨some ⟨some "u1", some "X"⟩⟩]⟩⟩], none⟩
      ⟨none, some [⟨some ⟨some [⟨some ⟨some "u2", some "Y"⟩⟩]⟩⟩], none⟩).2.2
    (by decide)

/-! ## Helper lemmas about strings -/

theorem string_data_append (a b : String) : (a ++ b).data = a.data ++ b.data :=
  rfl

theorem trimChars_idempotent (l : List Char) :
    (((l.dropWhile Char.isWhitespace).rdropWhile
        Char.isWhitespace).dropWhile Char.isWhitespace).rdropWhile
          Char.isWhitespace
      = (l.dropWhile Char.isWhitespace).rdropWhile Char.isWhitespace := by
  have hdrop : ((l.dropWhile Char.isWhitespace).rdropWhile
      Char.isWhitespace).dropWhile Char.isWhitespace
      = (l.dropWhile Char.isWhitespace).rdropWhile Char.isWhitespace := by
    rw [List.dropWhile_eq_self_iff]
    intro hl
    have hpre : (l.dropWhile Char.isWhitespace).rdropWhile Char.isWhitespace
        <+: l.dropWhile Char.isWhitespace :=
      List.rdropWhile_prefix Char.isWhitespace (l.dropWhile Char.isWhitespace)
    have hmlen : 0 < (l.dropWhile Char.isWhitespace).length :=
      lt_of_lt_of_le hl hpre.length_le
    have hget : ((l.dropWhile Char.isWhitespace).rdropWhile
        Char.isWhitespace).get ⟨0, hl⟩
        = (l.dropWhile Char.isWhitespace).get ⟨0, hmlen⟩ := by
      simp only [List.get_eq_getElem]
      exact List.IsPrefix.getElem hpre hl
    rw [hget]
    exact List.dropWhile_get_zero_not Char.isWhitespace l hmlen
  rw [hdrop, List.rdropWhile_idempotent]

theorem jsTrim_idempotent (s : String) : jsTrim (jsTrim s) = jsTrim s :=
  congrArg String.mk (trimChars_idempotent s.data)

/-! ## C8 -/

set_option maxRecDepth 4096 in
/-- C8: `formatCaseFiles` on an empty document list returns the empty
string with no wrapper tags; and for every document whose content
exceeds 14000 characters, the included content is truncated to at most
14000 characters while the rendered block still contains the original
untruncated character length of the content. -/
theorem formatCaseFiles_empty_and_truncation :
    formatCaseFiles [] = "" ∧
    ∀ f : CaseFile, 14000 < f.content.length →
      (safeContent f).length ≤ 14000 ∧
      jsIncludes (fileBlock f)
        ("(" ++ toString f.content.length ++ " chars)") = true := by
  constructor
  · rfl
  · intro f _
    constructor
    · have hlen : (safeContent f).length
          = ((jsTrim f.content).data.take 14000).length := rfl
      rw [hlen, List.length_take]
      exact min_le_left _ _
    · unfold jsIncludes
      rw [decide_eq_true_eq]
      refine ⟨"--- FILE: ".data ++ f.name.data ++ " ".data,
        " ---\n".data ++ (safeContent f).data ++ "\n--- END ---".data, ?_⟩
      simp only [fileBlock, string_data_append, List.append_assoc]
      simp

/-- C8 witness: a 14001-character document is truncated to at most
14000 characters. -/
theorem formatCaseFiles_empty_and_truncation_witness :
    14000 < (⟨"big.txt", ⟨List.replicate 14001 'a'⟩⟩ : CaseFile).content.length ∧
    (safeContent ⟨"big.txt", ⟨List.replicate 14001 'a'⟩⟩).length ≤ 14000 :=
  have hlen : 14000 <
      (⟨"big.txt", ⟨List.replicate 14001 'a'⟩⟩ : CaseFile).content.length := by
    show 14000 < (List.replicate 14001 'a').length
    rw [List.length_replicate]
    omega
  ⟨hlen, (formatCaseFiles_empty_and_truncation.2
    ⟨"big.txt", ⟨List.replicate 14001 'a'⟩⟩ hlen).1⟩

/-! ## C9 -/

/-- C9: when the underlying chat call ultimately fails (retries and
fallback exhausted), `handleSend` appends the user turn plus the fixed
apology turn as an assistant (model) turn — not the raw error — and the
history length increases by exactly 2. -/
theorem handleSend_failure_appends_apology
    (messages : List ChatMessage) (input : String)
    (primary : Nat → Except JsError GenerateContentResponse)
    (fallback : Except JsError GenerateContentResponse) (e : JsError)
    (hnb : ¬ jsTrim input = "")
    (hfail : (chatWithExpert primary fallback).result = .error e) :
    handleSend messages input (chatWithExpert primary fallback).result
        = messages ++ [⟨"user", input⟩, ⟨"model", apologyMessageText⟩] ∧
    (handleSend messages input (chatWithExpert primary fallback).result).length
        = messages.length + 2 := by
  rw [hfail]
  constructor
  · simp [handleSend, hnb]
  · simp [handleSend, hnb]

/-- C9 witness: a chat send over empty history whose primary and
fallback both fail with a non-retryable 400 appends exactly the user
turn and the apology turn. -/
theorem handleSend_failure_appends_apology_witness :
    handleSend [] "hi"
        (chatWithExpert (fun _ => .error ⟨some 400, none, some "bad request"⟩)
          (.error ⟨some 400, none, some "bad request"⟩)).result
      = [⟨"user", "hi"⟩, ⟨"model", apologyMessageText⟩] :=
  (handleSend_failure_appends_apology [] "hi"
    (fun _ => .error ⟨some 400, none, some "bad request"⟩)
    (.error ⟨some 400, none, some "bad request"⟩)
    ⟨some 400, none, some "bad request"⟩
    (by decide) (by decide)).1

/-! ## C10 -/

/-- C10: whenever the underlying call of `draftMotion` succeeds but the
returned text is absent, empty, or whitespace-only, the fixed
placeholder is returned instead; consequently a successful
`draftMotion` never returns an empty or whitespace-only string. -/
theorem draftMotion_placeholder_nonempty :
    (∀ (ro : RetryResult GenerateContentResponse)
        (response : GenerateContentResponse),
      ro.result = .ok response →
      (response.text = none ∨ ∃ t, response.text = some t ∧ jsTrim t = "") →
      draftMotion ro = .ok motionFailureText) ∧
    (∀ (ro : RetryResult GenerateContentResponse) (s : String),
      draftMotion ro = .ok s → s ≠ "" ∧ jsTrim s ≠ "") := by
  constructor
  · intro ro response hok htext
    rcases htext with hnone | ⟨t, ht, htrim⟩
    · simp [draftMotion, hok, hnone, jsOrString]
    · simp [draftMotion, hok, ht, jsOrString, htrim]
  · intro ro s hs
    cases hres : ro.result with
    | error e => simp [draftMotion, hres] at hs
    | ok response =>
      cases htext : response.text with
      | none =>
        have hval : draftMotion ro = .ok motionFailureText := by
          simp [draftMotion, hres, htext, jsOrString]
        rw [hval] at hs
        injection hs with h
        subst h
        exact ⟨by decide, by decide⟩
      | some t =>
        by_cases he : jsTrim t = ""
        · have hval : draftMotion ro = .ok motionFailureText := by
            simp [draftMotion, hres, htext, jsOrString, he]
          rw [hval] at hs
          injection hs with h
          subst h
          exact ⟨by decide, by decide⟩
        · have hval : draftMotion ro = .ok (jsTrim t) := by
            simp [draftMotion, hres, htext, jsOrString, he]
          rw [hval] at hs
          injection hs with h
          subst h
          exact ⟨he, by rw [jsTrim_idempotent]; exact he⟩

/-- C10 witness: a successful call whose text is whitespace-only yields
the fixed placeholder. -/
theorem draftMotion_placeholder_nonempty_witness :
    draftMotion ⟨1, 0, 0, .ok ⟨some "   ", none, none⟩⟩
      = .ok motionFailureText :=
  draftMotion_placeholder_nonempty.1 ⟨1, 0, 0, .ok ⟨some "   ", none, none⟩⟩
    ⟨some "   ", none, none⟩ rfl (Or.inr ⟨"   ", rfl, by decide⟩)
